import Mathlib

/-!
Shallow embedding of the SCM Commit Message Tool extension
(`src/extension.ts`): the Git repository locator `getGitRepository`,
the read tool `GetCommitMessageTool.invoke` and the merge/write tool
`UpdateCommitMessageTool.invoke`, together with proofs of the spec's
claims about them.

The host state (VS Code plus the built-in Git extension) is modelled as
a record holding whether the Git integration is available and the list
of open repositories, each carrying its SCM input box.  The two tool
invocations become explicit state-passing functions returning the new
host state together with an `Except` result, mirroring the fact that
the TypeScript code either throws before any write or performs exactly
one assignment `repo.inputBox.value = updatedValue`.
-/

namespace ScmTool

/-- The characters stripped by JavaScript `String.prototype.trim`:
ECMAScript WhiteSpace (TAB, VT, FF, SPACE, NBSP, ZWNBSP and the
Unicode Space_Separator category, i.e. OGHAM SPACE MARK, EN QUAD
through HAIR SPACE, NARROW NO-BREAK SPACE, MEDIUM MATHEMATICAL SPACE,
IDEOGRAPHIC SPACE) together with the LineTerminator characters
(LF, CR, LINE SEPARATOR, PARAGRAPH SEPARATOR). -/
def isJsWhitespace (c : Char) : Bool :=
  c.val = 0x9 || c.val = 0xA || c.val = 0xB || c.val = 0xC ||
  c.val = 0xD || c.val = 0x20 || c.val = 0xA0 || c.val = 0x1680 ||
  (0x2000 ≤ c.val && c.val ≤ 0x200A) ||
  c.val = 0x2028 || c.val = 0x2029 || c.val = 0x202F ||
  c.val = 0x205F || c.val = 0x3000 || c.val = 0xFEFF

/-- JavaScript `String.prototype.trim`, modelled on the character list:
drop JS whitespace characters from the front of the list and from the
front of its reversal. -/
def jsTrim (s : String) : String :=
  ⟨((s.data.dropWhile isJsWhitespace).reverse.dropWhile
      isJsWhitespace).reverse⟩

/-- The SCM input box of a repository: a single mutable string value
(`repo.inputBox.value` in the source). -/
structure InputBox where
  value : String
deriving DecidableEq

/-- A Git repository handle as used by the extension: only its
`inputBox` is ever touched by the source code. -/
structure Repository where
  inputBox : InputBox
deriving DecidableEq

/-- The host environment visible to the extension: whether the built-in
`vscode.git` extension can be found, and the open repositories in the
host's enumeration order (`git.repositories`). -/
structure Host where
  gitExtensionAvailable : Bool
  repositories : List Repository
deriving DecidableEq

/-- The two failure modes of the locator: the Git extension is missing
(`throw` at line 36 of the source) or no repository is open (`throw`
at line 49). -/
inductive GitError where
  | integrationUnavailable
  | noRepositoryOpen
deriving DecidableEq

/-- `getGitRepository` from the source: fail if the Git extension is
unavailable, fail if `git.repositories.length === 0`, otherwise return
`git.repositories[0]`. -/
def getGitRepository (host : Host) : Except GitError Repository :=
  if host.gitExtensionAvailable = false then
    .error .integrationUnavailable
  else
    match host.repositories with
    | [] => .error .noRepositoryOpen
    | repo :: _ => .ok repo

/-- `GetCommitMessageTool.invoke`: resolve the repository and return
`repo.inputBox.value`.  The source performs no assignment, so the host
state is returned unchanged on every path. -/
def getCommitMessageInvoke (host : Host) : Host × Except GitError String :=
  match getGitRepository host with
  | .error e => (host, .error e)
  | .ok repo => (host, .ok repo.inputBox.value)

/-- Write a value into the input box of the first open repository,
modelling the single assignment `repo.inputBox.value = updatedValue`
performed on the repository returned by `getGitRepository`. -/
def writeFirstRepo (host : Host) (v : String) : Host :=
  { host with
    repositories :=
      match host.repositories with
      | [] => []
      | repo :: rest => { repo with inputBox := { value := v } } :: rest }

/-- `UpdateCommitMessageTool.invoke`: resolve the repository, trim the
current input box value, compute the updated value and a result
description following the source's branches (empty box; `replace`;
`prepend`; `append` and the switch default), then perform the single
write.  `mode = none` models an omitted `mode` field, whose
destructuring default is `"append"`. -/
def updateCommitMessageInvoke (host : Host) (message : String)
    (mode : Option String) : Host × Except GitError String :=
  match getGitRepository host with
  | .error e => (host, .error e)
  | .ok repo =>
    let currentValue : String := jsTrim repo.inputBox.value
    let result : String × String :=
      if currentValue = "" then
        (message, "Commit message set to:\n" ++ message)
      else
        let m : String := mode.getD "append"
        if m = "replace" then
          (message, "Commit message replaced. New message:\n" ++ message)
        else if m = "prepend" then
          let updatedValue := message ++ "\n\n" ++ currentValue
          (updatedValue,
            "New text prepended before existing message.\nFull message:\n"
              ++ updatedValue)
        else
          let updatedValue := currentValue ++ "\n\n" ++ message
          (updatedValue,
            "New text appended after existing message.\nFull message:\n"
              ++ updatedValue)
    (writeFirstRepo host result.1, .ok result.2)

/-- The current input box value of the first open repository, if any. -/
def firstValue (host : Host) : Option String :=
  host.repositories.head?.map (fun repo => repo.inputBox.value)

end ScmTool

open ScmTool

/-- The locator succeeds with the first repository when the Git
extension is available and at least one repository is open. -/
theorem getGitRepository_cons (host : Host) (r : Repository)
    (rs : List Repository) (havail : host.gitExtensionAvailable = true)
    (hrepos : host.repositories = r :: rs) :
    getGitRepository host = .ok r := by
  simp [getGitRepository, havail, hrepos]

/-- Unfolding of the update tool when the locator succeeds: the new
host is the old one with the merged value written into the first
repository's input box. -/
theorem updateCommitMessageInvoke_fst (host : Host) (message : String)
    (mode : Option String) (r : Repository) (rs : List Repository)
    (havail : host.gitExtensionAvailable = true)
    (hrepos : host.repositories = r :: rs) :
    (updateCommitMessageInvoke host message mode).1
      = writeFirstRepo host
          (if jsTrim r.inputBox.value = "" then message
           else if mode.getD "append" = "replace" then message
           else if mode.getD "append" = "prepend" then
             message ++ "\n\n" ++ jsTrim r.inputBox.value
           else jsTrim r.inputBox.value ++ "\n\n" ++ message) := by
  rw [updateCommitMessageInvoke, getGitRepository_cons host r rs havail hrepos]
  by_cases hblank : jsTrim r.inputBox.value = "" <;>
    by_cases hrep : mode.getD "append" = "replace" <;>
    by_cases hpre : mode.getD "append" = "prepend" <;>
    simp [hblank, hrep, hpre]

/-- The first repository's value after a write is the written value. -/
theorem firstValue_writeFirstRepo (host : Host) (r : Repository)
    (rs : List Repository) (v : String)
    (hrepos : host.repositories = r :: rs) :
    firstValue (writeFirstRepo host v) = some v := by
  simp [firstValue, writeFirstRepo, hrepos]

/-- C8: the Repository Locator fails with `IntegrationUnavailable`
exactly when the host's version-control integration cannot be found,
fails with `NoRepositoryOpen` exactly when the integration enumerates
zero working copies, and otherwise returns the first working copy in
the host's enumeration order, also when several are open. -/
theorem locator_spec (host : Host) :
    (getGitRepository host = .error .integrationUnavailable ↔
      host.gitExtensionAvailable = false) ∧
    (getGitRepository host = .error .noRepositoryOpen ↔
      host.gitExtensionAvailable = true ∧ host.repositories = []) ∧
    (∀ r rs, host.gitExtensionAvailable = true →
      host.repositories = r :: rs → getGitRepository host = .ok r) := by
  obtain ⟨avail, repos⟩ := host
  cases avail <;> cases repos <;> simp [getGitRepository]

/-- Witness for C8: on a host with two open repositories the locator
returns the first one. -/
theorem locator_spec_witness :
    getGitRepository ⟨true, [⟨⟨"v"⟩⟩, ⟨⟨"w"⟩⟩]⟩ = .ok ⟨⟨"v"⟩⟩ :=
  (locator_spec ⟨true, [⟨⟨"v"⟩⟩, ⟨⟨"w"⟩⟩]⟩).2.2 ⟨⟨"v"⟩⟩ [⟨⟨"w"⟩⟩] rfl rfl

/-- C9: `ReadMessage` has no side effects: it leaves the host state
unchanged on every path, returns the first repository's current value
verbatim when the locator succeeds, and repeating the call without an
intervening update returns the same result. -/
theorem read_pure (host : Host) :
    (getCommitMessageInvoke host).1 = host ∧
    (∀ r rs, host.gitExtensionAvailable = true →
      host.repositories = r :: rs →
      (getCommitMessageInvoke host).2 = .ok r.inputBox.value) ∧
    getCommitMessageInvoke (getCommitMessageInvoke host).1
      = getCommitMessageInvoke host := by
  refine ⟨?_, ?_, ?_⟩
  · rw [getCommitMessageInvoke]
    cases getGitRepository host <;> rfl
  · intro r rs havail hrepos
    rw [getCommitMessageInvoke, getGitRepository_cons host r rs havail hrepos]
  · rw [show (getCommitMessageInvoke host).1 = host from ?_]
    rw [getCommitMessageInvoke]
    cases getGitRepository host <;> rfl

/-- Witness for C9: reading a host with one repository holding "msg"
returns "msg". -/
theorem read_pure_witness :
    (getCommitMessageInvoke ⟨true, [⟨⟨"msg"⟩⟩]⟩).2 = .ok "msg" :=
  (read_pure ⟨true, [⟨⟨"msg"⟩⟩]⟩).2.1 ⟨⟨"msg"⟩⟩ [] rfl rfl

/-- C5: when the integration is available but enumerates zero working
copies, both tools fail with `NoRepositoryOpen` and the host state —
hence the field — is returned unchanged, with no write performed. -/
theorem no_repository_error (host : Host) (message : String)
    (mode : Option String) (havail : host.gitExtensionAvailable = true)
    (hrepos : host.repositories = []) :
    getCommitMessageInvoke host = (host, .error .noRepositoryOpen) ∧
    updateCommitMessageInvoke host message mode
      = (host, .error .noRepositoryOpen) := by
  constructor
  · rw [getCommitMessageInvoke, show getGitRepository host
      = .error .noRepositoryOpen by simp [getGitRepository, havail, hrepos]]
  · rw [updateCommitMessageInvoke, show getGitRepository host
      = .error .noRepositoryOpen by simp [getGitRepository, havail, hrepos]]

/-- Witness for C5: both tools fail with `NoRepositoryOpen` on a host
with the Git extension available but no repositories. -/
theorem no_repository_error_witness :
    getCommitMessageInvoke ⟨true, []⟩
        = (⟨true, []⟩, .error .noRepositoryOpen) ∧
    updateCommitMessageInvoke ⟨true, []⟩ "m" (some "replace")
        = (⟨true, []⟩, .error .noRepositoryOpen) :=
  no_repository_error ⟨true, []⟩ "m" (some "replace") rfl rfl

/-- C1: for every existing field value that is empty or whitespace-only
and every mode (a mode string or an omitted mode), the update tool
writes the field to equal the message exactly, inserted verbatim. -/
theorem update_blank_field (host : Host) (message : String)
    (mode : Option String) (r : Repository) (rs : List Repository)
    (havail : host.gitExtensionAvailable = true)
    (hrepos : host.repositories = r :: rs)
    (hblank : jsTrim r.inputBox.value = "") :
    firstValue (updateCommitMessageInvoke host message mode).1
      = some message := by
  rw [updateCommitMessageInvoke_fst host message mode r rs havail hrepos,
    if_pos hblank, firstValue_writeFirstRepo host r rs message hrepos]

/-- Witness for C1: on a whitespace-only field, an unrecognized mode
string still writes the message verbatim. -/
theorem update_blank_field_witness :
    firstValue
        (updateCommitMessageInvoke ⟨true, [⟨⟨" \n "⟩⟩]⟩ " hi " (some "bogus")).1
      = some " hi " :=
  update_blank_field ⟨true, [⟨⟨" \n "⟩⟩]⟩ " hi " (some "bogus") ⟨⟨" \n "⟩⟩ []
    rfl rfl (by decide)

/-- Unfolding of the update tool's full result pair on a non-blank
field when the effective mode is neither `replace` nor `prepend`: the
switch's `append`/default branch runs. -/
theorem updateCommitMessageInvoke_append_branch (host : Host)
    (message : String) (mode : Option String) (r : Repository)
    (rs : List Repository) (havail : host.gitExtensionAvailable = true)
    (hrepos : host.repositories = r :: rs)
    (hne : jsTrim r.inputBox.value ≠ "")
    (hrep : mode.getD "append" ≠ "replace")
    (hpre : mode.getD "append" ≠ "prepend") :
    updateCommitMessageInvoke host message mode
      = (writeFirstRepo host (jsTrim r.inputBox.value ++ "\n\n" ++ message),
         .ok ("New text appended after existing message.\nFull message:\n"
            ++ (jsTrim r.inputBox.value ++ "\n\n" ++ message))) := by
  rw [updateCommitMessageInvoke, getGitRepository_cons host r rs havail hrepos]
  simp only [if_neg hne, if_neg hrep, if_neg hpre]

/-- The read tool's result on a host whose first repository is `r`. -/
theorem getCommitMessageInvoke_snd (host : Host) (r : Repository)
    (rs : List Repository) (havail : host.gitExtensionAvailable = true)
    (hrepos : host.repositories = r :: rs) :
    (getCommitMessageInvoke host).2 = .ok r.inputBox.value := by
  rw [getCommitMessageInvoke, getGitRepository_cons host r rs havail hrepos]

/-- Writing the same value twice is the same as writing it once. -/
theorem writeFirstRepo_idem (host : Host) (v : String) :
    writeFirstRepo (writeFirstRepo host v) v = writeFirstRepo host v := by
  obtain ⟨avail, repos⟩ := host
  cases repos <;> rfl

/-- With mode `replace`, the written value is the message on both the
blank-field branch and the `replace` branch. -/
theorem updateCommitMessageInvoke_replace_fst (host : Host)
    (message : String) (r : Repository) (rs : List Repository)
    (havail : host.gitExtensionAvailable = true)
    (hrepos : host.repositories = r :: rs) :
    (updateCommitMessageInvoke host message (some "replace")).1
      = writeFirstRepo host message := by
  rw [updateCommitMessageInvoke_fst host message (some "replace") r rs havail
    hrepos]
  by_cases hblank : jsTrim r.inputBox.value = ""
  · rw [if_pos hblank]
  · rw [if_neg hblank, if_pos (by decide)]

/-- C2: on an existing field value whose trim `T` is non-empty, the
update tool writes `T ++ "\n\n" ++ M` under `append`, `M ++ "\n\n" ++ T`
under `prepend`, and `M` under `replace`, with the message `M` never
trimmed or altered. -/
theorem update_merge_modes (host : Host) (message : String)
    (r : Repository) (rs : List Repository)
    (havail : host.gitExtensionAvailable = true)
    (hrepos : host.repositories = r :: rs)
    (hne : jsTrim r.inputBox.value ≠ "") :
    firstValue (updateCommitMessageInvoke host message (some "append")).1
      = some (jsTrim r.inputBox.value ++ "\n\n" ++ message) ∧
    firstValue (updateCommitMessageInvoke host message (some "prepend")).1
      = some (message ++ "\n\n" ++ jsTrim r.inputBox.value) ∧
    firstValue (updateCommitMessageInvoke host message (some "replace")).1
      = some message := by
  refine ⟨?_, ?_, ?_⟩
  · rw [updateCommitMessageInvoke_fst host message (some "append") r rs havail
      hrepos, if_neg hne, if_neg (by decide), if_neg (by decide)]
    exact firstValue_writeFirstRepo host r rs _ hrepos
  · rw [updateCommitMessageInvoke_fst host message (some "prepend") r rs havail
      hrepos, if_neg hne, if_neg (by decide), if_pos (by decide)]
    exact firstValue_writeFirstRepo host r rs _ hrepos
  · rw [updateCommitMessageInvoke_fst host message (some "replace") r rs havail
      hrepos, if_neg hne, if_pos (by decide)]
    exact firstValue_writeFirstRepo host r rs _ hrepos

/-- Witness for C2 at the boundary case: appending the empty message to
existing value "abc" writes "abc\n\n", the empty incoming text still
inserted verbatim. -/
theorem update_merge_modes_witness :
    firstValue (updateCommitMessageInvoke ⟨true, [⟨⟨"abc"⟩⟩]⟩ ""
        (some "append")).1 = some "abc\n\n" :=
  ((update_merge_modes ⟨true, [⟨⟨"abc"⟩⟩]⟩ "" ⟨⟨"abc"⟩⟩ [] rfl rfl
    (by decide)).1).trans (by decide)

/-- C3: the existing field content is never discarded except under
`replace` mode or when the field was already blank: whenever the
trimmed existing value is non-empty and the mode is not `replace`, the
trimmed existing value occurs inside the newly written value. -/
theorem merge_keeps_existing (host : Host) (message : String)
    (mode : Option String) (r : Repository) (rs : List Repository)
    (havail : host.gitExtensionAvailable = true)
    (hrepos : host.repositories = r :: rs)
    (hne : jsTrim r.inputBox.value ≠ "")
    (hmode : mode ≠ some "replace") :
    ∃ a b, firstValue (updateCommitMessageInvoke host message mode).1
      = some (a ++ jsTrim r.inputBox.value ++ b) := by
  have hrep : mode.getD "append" ≠ "replace" := by
    cases mode with
    | none => decide
    | some s =>
      simp only [Option.getD_some]
      exact fun h => hmode (by rw [h])
  rw [updateCommitMessageInvoke_fst host message mode r rs havail hrepos,
    if_neg hne, if_neg hrep]
  by_cases hpre : mode.getD "append" = "prepend"
  · refine ⟨message ++ "\n\n", "", ?_⟩
    rw [if_pos hpre, firstValue_writeFirstRepo host r rs _ hrepos,
      String.append_empty]
  · refine ⟨"", "\n\n" ++ message, ?_⟩
    rw [if_neg hpre, firstValue_writeFirstRepo host r rs _ hrepos,
      String.empty_append, String.append_assoc]

/-- Witness for C3: an append with omitted mode keeps the trimmed
existing value "abc" inside the written value. -/
theorem merge_keeps_existing_witness :
    ∃ a b,
      firstValue (updateCommitMessageInvoke ⟨true, [⟨⟨" abc "⟩⟩]⟩ "x" none).1
        = some (a ++ jsTrim (⟨⟨" abc "⟩⟩ : Repository).inputBox.value ++ b) :=
  merge_keeps_existing ⟨true, [⟨⟨" abc "⟩⟩]⟩ "x" none ⟨⟨" abc "⟩⟩ [] rfl rfl
    (by decide) (by decide)

/-- C6: round-trip — after a successful `UpdateMessage(M, "replace")`,
`ReadMessage()` returns exactly `M`, whichever prior state the field
was in. -/
theorem replace_read_roundtrip (host : Host) (message : String)
    (r : Repository) (rs : List Repository)
    (havail : host.gitExtensionAvailable = true)
    (hrepos : host.repositories = r :: rs) :
    (getCommitMessageInvoke
        (updateCommitMessageInvoke host message (some "replace")).1).2
      = .ok message := by
  rw [updateCommitMessageInvoke_replace_fst host message r rs havail hrepos]
  have hrepos2 : (writeFirstRepo host message).repositories
      = ⟨⟨message⟩⟩ :: rs := by
    simp [writeFirstRepo, hrepos]
  exact getCommitMessageInvoke_snd (writeFirstRepo host message) ⟨⟨message⟩⟩
    rs havail hrepos2

/-- Witness for C6: replacing "old stuff" with "new" then reading
returns "new". -/
theorem replace_read_roundtrip_witness :
    (getCommitMessageInvoke
        (updateCommitMessageInvoke ⟨true, [⟨⟨"old stuff"⟩⟩]⟩ "new"
          (some "replace")).1).2 = .ok "new" :=
  replace_read_roundtrip ⟨true, [⟨⟨"old stuff"⟩⟩]⟩ "new" ⟨⟨"old stuff"⟩⟩ []
    rfl rfl

/-- C7: on a non-blank field, an omitted mode and any unrecognized mode
string behave exactly as mode `append`: the whole invocation result
coincides with the `append` one, and the written value is the trimmed
existing value, two newline characters, then the message. -/
theorem default_mode_appends (host : Host) (message : String)
    (mode : Option String) (r : Repository) (rs : List Repository)
    (havail : host.gitExtensionAvailable = true)
    (hrepos : host.repositories = r :: rs)
    (hne : jsTrim r.inputBox.value ≠ "")
    (hmode : mode = none ∨ ∃ s, mode = some s ∧ s ≠ "append" ∧
      s ≠ "replace" ∧ s ≠ "prepend") :
    updateCommitMessageInvoke host message mode
      = updateCommitMessageInvoke host message (some "append") ∧
    firstValue (updateCommitMessageInvoke host message mode).1
      = some (jsTrim r.inputBox.value ++ "\n\n" ++ message) := by
  have hrep : mode.getD "append" ≠ "replace" := by
    rcases hmode with h | ⟨s, hs, _, hs2, _⟩
    · rw [h]; decide
    · rw [hs, Option.getD_some]; exact hs2
  have hpre : mode.getD "append" ≠ "prepend" := by
    rcases hmode with h | ⟨s, hs, _, _, hs3⟩
    · rw [h]; decide
    · rw [hs, Option.getD_some]; exact hs3
  have h1 := updateCommitMessageInvoke_append_branch host message mode r rs
    havail hrepos hne hrep hpre
  have h2 := updateCommitMessageInvoke_append_branch host message
    (some "append") r rs havail hrepos hne (by decide) (by decide)
  refine ⟨h1.trans h2.symm, ?_⟩
  rw [h1]
  exact firstValue_writeFirstRepo host r rs _ hrepos

/-- Witness for C7: the unrecognized mode string "merge" on field "abc"
behaves as `append`. -/
theorem default_mode_appends_witness :
    updateCommitMessageInvoke ⟨true, [⟨⟨"abc"⟩⟩]⟩ "x" (some "merge")
        = updateCommitMessageInvoke ⟨true, [⟨⟨"abc"⟩⟩]⟩ "x" (some "append") ∧
    firstValue (updateCommitMessageInvoke ⟨true, [⟨⟨"abc"⟩⟩]⟩ "x"
          (some "merge")).1
        = some (jsTrim (⟨⟨"abc"⟩⟩ : Repository).inputBox.value ++ "\n\n"
            ++ "x") :=
  default_mode_appends ⟨true, [⟨⟨"abc"⟩⟩]⟩ "x" (some "merge") ⟨⟨"abc"⟩⟩ []
    rfl rfl (by decide)
    (Or.inr ⟨"merge", rfl, by decide, by decide, by decide⟩)

/-- C10: mode `replace` is idempotent on the field state — running the
same `replace` update twice leaves the host exactly as one run does,
the second run rewriting the message through the blank-field branch or
the `replace` branch. -/
theorem replace_idempotent (host : Host) (message : String)
    (r : Repository) (rs : List Repository)
    (havail : host.gitExtensionAvailable = true)
    (hrepos : host.repositories = r :: rs) :
    (updateCommitMessageInvoke
        (updateCommitMessageInvoke host message (some "replace")).1
        message (some "replace")).1
      = (updateCommitMessageInvoke host message (some "replace")).1 := by
  rw [updateCommitMessageInvoke_replace_fst host message r rs havail hrepos]
  have hrepos2 : (writeFirstRepo host message).repositories
      = ⟨⟨message⟩⟩ :: rs := by
    simp [writeFirstRepo, hrepos]
  rw [updateCommitMessageInvoke_replace_fst (writeFirstRepo host message)
    message ⟨⟨message⟩⟩ rs havail hrepos2]
  exact writeFirstRepo_idem host message

/-- Witness for C10: replacing with "m" twice equals replacing once. -/
theorem replace_idempotent_witness :
    (updateCommitMessageInvoke
        (updateCommitMessageInvoke ⟨true, [⟨⟨"seed"⟩⟩]⟩ "m"
          (some "replace")).1 "m" (some "replace")).1
      = (updateCommitMessageInvoke ⟨true, [⟨⟨"seed"⟩⟩]⟩ "m"
          (some "replace")).1 :=
  replace_idempotent ⟨true, [⟨⟨"seed"⟩⟩]⟩ "m" ⟨⟨"seed"⟩⟩ [] rfl rfl

/-- Counterexample to C4 as stated: from an initially empty field,
`UpdateMessage("")` then `UpdateMessage("b")`, both with default mode,
leaves the field equal to "b", not to `"" ++ "\n\n" ++ "b"`: the first
message was blank, so the second call takes the blank-field branch. -/
theorem accumulate_counterexample :
    firstValue (updateCommitMessageInvoke
        (updateCommitMessageInvoke ⟨true, [⟨⟨""⟩⟩]⟩ "" none).1 "b" none).1
      ≠ some ("" ++ "\n\n" ++ "b") := by decide

/-- C4 (amended): for every pair of messages M1, M2 with M1 non-empty
and equal to its own trim (no leading or trailing whitespace), starting
from an initially empty field, `UpdateMessage(M1)` then
`UpdateMessage(M2)` with default mode leaves the field equal to
`M1 ++ "\n\n" ++ M2`. -/
theorem accumulate_default_mode (host : Host) (m1 m2 : String)
    (r : Repository) (rs : List Repository)
    (havail : host.gitExtensionAvailable = true)
    (hrepos : host.repositories = r :: rs)
    (hempty : r.inputBox.value = "")
    (htrim : jsTrim m1 = m1) (hne : m1 ≠ "") :
    firstValue (updateCommitMessageInvoke
        (updateCommitMessageInvoke host m1 none).1 m2 none).1
      = some (m1 ++ "\n\n" ++ m2) := by
  have h1 : (updateCommitMessageInvoke host m1 none).1
      = writeFirstRepo host m1 := by
    rw [updateCommitMessageInvoke_fst host m1 none r rs havail hrepos,
      if_pos (by rw [hempty]; decide)]
  rw [h1]
  have hrepos2 : (writeFirstRepo host m1).repositories = ⟨⟨m1⟩⟩ :: rs := by
    simp [writeFirstRepo, hrepos]
  have hne2 : jsTrim (⟨⟨m1⟩⟩ : Repository).inputBox.value ≠ "" := by
    rw [show (⟨⟨m1⟩⟩ : Repository).inputBox.value = m1 from rfl, htrim]
    exact hne
  rw [updateCommitMessageInvoke_fst (writeFirstRepo host m1) m2 none ⟨⟨m1⟩⟩
    rs havail hrepos2, if_neg hne2, if_neg (by decide), if_neg (by decide),
    firstValue_writeFirstRepo (writeFirstRepo host m1) ⟨⟨m1⟩⟩ rs _ hrepos2,
    show (⟨⟨m1⟩⟩ : Repository).inputBox.value = m1 from rfl, htrim]

/-- Witness for C4 (amended): "a" then "b" on an empty field yields
"a\n\nb". -/
theorem accumulate_default_mode_witness :
    firstValue (updateCommitMessageInvoke
        (updateCommitMessageInvoke ⟨true, [⟨⟨""⟩⟩]⟩ "a" none).1 "b" none).1
      = some ("a" ++ "\n\n" ++ "b") :=
  accumulate_default_mode ⟨true, [⟨⟨""⟩⟩]⟩ "a" "b" ⟨⟨""⟩⟩ [] rfl rfl rfl
    (by decide) (by decide)
